import Mathlib

/-!
Verification development for the road-event ingestion pipeline
(`fetch_road_events.py`): a shallow embedding of its data model and
operations, followed by theorems about the embedded definitions.

Modelling conventions:
* Python attribute mappings (`dict`) become association lists `List (String × PVal)`;
  `PVal` covers the scalar shapes the pipeline inspects (string, integer, null).
* Python truthiness (`or` chains, `if value:`) is modelled explicitly by `PVal.truthy`.
* Python `str` methods (`lower`, `upper`, `startswith`, `in`, `strip`) are modelled
  over `String.data` character lists, since they are external library behaviour.
* Numeric geometry coordinates are carried as integers; no theorem interprets them.
* `datetime.fromisoformat` and `hashlib.md5` are external libraries: the ISO parser
  is a parameter of the scorer, and the digest has a concrete stand-in (`contentHash12`).
-/

namespace IdotRoad

/-- Scalar value of one raw upstream attribute (a Python `dict` value). -/
inductive PVal where
  | str (s : String)
  | num (n : Int)
  | null
deriving DecidableEq, Repr

/-- Python truthiness of an attribute value: `None`, `""` and `0` are falsy. -/
def PVal.truthy : PVal → Bool
  | .str s => !s.isEmpty
  | .num n => n != 0
  | .null => false

/-- Python `str(v)` rendering used by f-string interpolation. -/
def PVal.pyStr : PVal → String
  | .str s => s
  | .num n => toString n
  | .null => "None"

/-- Raw feature properties: the upstream field mapping (`feat["properties"]`). -/
abbrev Props := List (String × PVal)

/-- Models Python `p.get(k)`: `none` when the key is absent. -/
def getVal (p : Props) (k : String) : Option PVal :=
  (p.find? (fun kv => kv.1 = k)).map (fun kv => kv.2)

/-- Models a Python `p.get(k1) or p.get(k2) or ...` chain: the first truthy
value among the listed keys, `none` when every candidate is falsy or absent. -/
def orKeys (p : Props) : List String → Option PVal
  | [] => none
  | k :: ks =>
    match getVal p k with
    | some v => if v.truthy then some v else orKeys p ks
    | none => orKeys p ks

/-- Models `(p.get(k1) or ... or "")` where the result is used as a string. -/
def orKeysStr (p : Props) (ks : List String) : String :=
  match orKeys p ks with
  | some v => v.pyStr
  | none => ""

/-- Substring test on character lists (the semantics of Python `needle in hay`). -/
def charsInfix (needle : List Char) : List Char → Bool
  | [] => needle.isEmpty
  | c :: rest => needle.isPrefixOf (c :: rest) || charsInfix needle rest

/-- Models Python `needle in hay` on strings. -/
def pyIn (needle hay : String) : Bool :=
  charsInfix needle.data hay.data

/-- Models Python `s.lower()`. -/
def pyLower (s : String) : String :=
  ⟨s.data.map Char.toLower⟩

/-- Models Python `s.upper()`. -/
def pyUpper (s : String) : String :=
  ⟨s.data.map Char.toUpper⟩

/-- Models Python `s.startswith(marker)`. -/
def pyStartsWith (s marker : String) : Bool :=
  marker.data.isPrefixOf s.data

/-- Models Python `s.strip()`. -/
def pyStrip (s : String) : String :=
  ⟨((s.data.dropWhile Char.isWhitespace).reverse.dropWhile Char.isWhitespace).reverse⟩

/-- Keyword bucket mapped to `"active"` by status normalization. -/
def activeWords : List String := ["active", "in progress", "current", "open"]

/-- Keyword bucket mapped to `"planned"` by status normalization. -/
def plannedWords : List String := ["planned", "upcoming", "scheduled"]

/-- Keyword bucket mapped to `"ended"` by status normalization. -/
def endedWords : List String := ["ended", "completed", "closed"]

/-- Models `any(w in raw_status for w in ws)`. -/
def anyWordIn (ws : List String) (s : String) : Bool :=
  ws.any (fun w => pyIn w s)

/-- Status classification over the (already lower-cased) raw status string,
mirroring the `if any ... elif any ... elif any ... else` chain. -/
def classify_status (raw_status : String) : String :=
  if anyWordIn activeWords raw_status then "active"
  else if anyWordIn plannedWords raw_status then "planned"
  else if anyWordIn endedWords raw_status then "ended"
  else "unknown"

/-- Stand-in for `datetime.fromtimestamp(ms/1000, utc).isoformat()` (external
library); its output is uninterpreted by every theorem below. -/
def epochMsToIso (n : Int) : String :=
  "epoch-ms:" ++ toString n

/-- Models the inner `parse_date` helper of `normalize_event`: epoch-millisecond
numbers above `1e12` become ISO strings, strings are stripped, all else is `None`. -/
def parse_date : Option PVal → Option String
  | some (.num n) => if n > 1000000000000 then some (epochMsToIso n) else none
  | some (.str s) => some (pyStrip s)
  | some .null => none
  | none => none

/-- Stable insertion step: place `a` before the first element `b` with `le a b`.
Together with `stableSortBy` this is the unique stable sort for a total
preorder, the sorting contract of Python `list.sort` / `sorted`. -/
def stableInsert (le : α → α → Bool) (a : α) : List α → List α
  | [] => [a]
  | b :: l => if le a b then a :: b :: l else b :: stableInsert le a l

/-- Stable sort by the boolean preorder `le` (models Python's stable sorting). -/
def stableSortBy (le : α → α → Bool) (l : List α) : List α :=
  l.foldr (stableInsert le) []

/-- Code-point lexicographic comparison of character lists (Python string `<=`). -/
def charsLe : List Char → List Char → Bool
  | [], _ => true
  | _ :: _, [] => false
  | a :: as, b :: bs =>
    if a.toNat < b.toNat then true
    else if b.toNat < a.toNat then false
    else charsLe as bs

/-- Models Python string comparison `a <= b` (code-point lexicographic). -/
def pyStrLe (a b : String) : Bool :=
  charsLe a.data b.data

/-- Models `json.dumps(p, sort_keys=True, ...)`: the field mapping sorted by key. -/
def sortPropsByKey (p : Props) : Props :=
  stableSortBy (fun a b => pyStrLe a.1 b.1) p

/-- Canonical rendering of one attribute value for the content digest. -/
def serializePVal : PVal → String
  | .str s => "s:" ++ s
  | .num n => "n:" ++ toString n
  | .null => "null"

/-- Canonical serialization of a (key-sorted) field mapping for the digest. -/
def serializeProps (l : Props) : String :=
  String.join (l.map (fun kv => kv.1 ++ "=" ++ serializePVal kv.2 ++ ";"))

/-- Hexadecimal digit characters. -/
def hexDigit (n : Nat) : Char :=
  "0123456789abcdef".data.getD (n % 16) '0'

/-- Render the low 12 hexadecimal digits of a number (most significant first). -/
def hex12 (n : Nat) : String :=
  ⟨((List.range 12).map (fun i => hexDigit (n / 16 ^ i % 16))).reverse⟩

/-- Simple string digest accumulator; stand-in for the MD5 compression function. -/
def simpleDigest (s : String) : Nat :=
  s.data.foldl (fun a c => (a * 131 + c.toNat) % 16 ^ 12) 7

/-- Models `hashlib.md5(json.dumps(p, sort_keys=True, default=str).encode())
.hexdigest()[:12]`: a deterministic 12-hex-character digest of the canonical
serialization of the key-sorted raw field mapping.  The digest function itself
stands in for MD5 (external library); theorems use only its determinism,
its dependence on the sorted mapping alone, and its output length. -/
def contentHash12 (p : Props) : String :=
  hex12 (simpleDigest (serializeProps (sortPropsByKey p)))

/-- Feature geometry as inspected by `normalize_event` (`geometry.get("type")
== "Point"` plus a coordinate array; coordinates modelled as integers). -/
inductive Geom where
  | point (coords : List Int)
  | other
deriving DecidableEq, Repr

/-- Canonical normalized road event (the `RoadEvent` dictionary).  The Python
key `end` is spelled `endTime` (Lean keyword) and the aggregator-added key
`_source_district` is spelled `sourceDistrict`, absent (`none`) until tagging. -/
structure Event where
  id : String
  type : String
  status : String
  road : String
  direction : String
  location_text : String
  county : String
  description : String
  lanes : String
  start : Option String
  endTime : Option String
  last_updated : Option String
  lat : Option Int
  lon : Option Int
  source_url : String
  severity : Int
  raw_status : String
  source_layer : String
  sourceDistrict : Option String := none
deriving DecidableEq, Repr

/-- The object-identifier candidate keys used for `id` derivation. -/
def objIdKeys : List String := ["OBJECTID", "ObjectId", "FID"]

/-- Models `normalize_event(raw_props, layer_type, geometry)`. -/
def normalize_event (p : Props) (layer_type : String) (geometry : Option Geom) : Event :=
  let latlon : Option Int × Option Int :=
    match geometry with
    | some (.point coords) =>
      if coords.length ≥ 2 then (coords.get? 1, coords.get? 0) else (none, none)
    | _ => (none, none)
  let raw_status := pyLower (orKeysStr p ["Status", "STATUS"])
  { id :=
      match orKeys p objIdKeys with
      | some v => layer_type ++ ":" ++ v.pyStr
      | none => contentHash12 p
    type := layer_type
    status := classify_status raw_status
    road := orKeysStr p ["Route", "Route1", "ROUTE", "RoadName", "ROAD_NAME", "road"]
    direction := orKeysStr p ["Direction", "DIRECTION"]
    location_text := orKeysStr p ["NearTown", "NEAR_TOWN", "Location", "LOCATION", "LocationDescription"]
    county := orKeysStr p ["County", "COUNTY"]
    description := orKeysStr p ["Description", "DESCRIPTION", "ConstructionType",
      "CONSTRUCTION_TYPE", "ImpactOnTravel", "IMPACT_ON_TRAVEL"]
    lanes := orKeysStr p ["LanesAffected", "LANES_AFFECTED", "ImpactOnTravel", "TrafficAlert"]
    start := parse_date (orKeys p ["StartDate", "START_DATE", "start"])
    endTime := parse_date (orKeys p ["EndDate", "END_DATE", "end"])
    last_updated := parse_date (orKeys p ["LastUpdated", "LAST_UPDATED", "EditDate"])
    lat := latlon.1
    lon := latlon.2
    source_url :=
      match orKeys p ["WebAddress", "WEB_ADDRESS", "url", "URL"] with
      | some v => v.pyStr
      | none => "https://www.gettingaroundillinois.com/"
    severity := 0
    raw_status := raw_status
    source_layer := layer_type }

/-- Base score contribution of the event type (`closure`/`restriction`/`construction`). -/
def typeScore (t : String) : Int :=
  if t = "closure" then 60
  else if t = "restriction" then 40
  else if t = "construction" then 25
  else 0

/-- Score contribution of the normalized status (`+20` when active). -/
def statusScore (s : String) : Int :=
  if s = "active" then 20 else 0

/-- Score contribution of the road marker: first match wins among the
interstate / US-route / state-route tests on the upper-cased road string. -/
def roadScore (road : String) : Int :=
  if pyStartsWith (pyUpper road) "I-" || pyStartsWith (pyUpper road) "I " then 15
  else if pyStartsWith (pyUpper road) "US-" || pyStartsWith (pyUpper road) "US " then 10
  else if pyStartsWith (pyUpper road) "IL-" || pyStartsWith (pyUpper road) "IL " then 5
  else 0

/-- Score contribution of the combined lanes+description text: first match wins. -/
def laneScore (combined : String) : Int :=
  if pyIn "road closed" combined || pyIn "all lanes" combined then 20
  else if pyIn "closed" combined then 10
  else if pyIn "one lane" combined || pyIn "shoulder" combined then 5
  else 0

/-- The combined lanes+description text, `lanes.lower() + " " + description.lower()`. -/
def combinedText (e : Event) : String :=
  pyLower e.lanes ++ " " ++ pyLower e.description

/-- Imminent-end-date bonus.  `parseEnd` models `datetime.fromisoformat` applied
after the `Z → +00:00` replacement, returning an epoch-second value or `none`
on a parse failure (the Python `except` path); `now` is the wall-clock epoch
second at scoring time.  `0 < hours_left < 48` over real-valued hours is exactly
`0 < secondsLeft < 172800` over seconds. -/
def endBonus (parseEnd : String → Option Int) (now : Int) : Option String → Int
  | none => 0
  | some s =>
    if s.isEmpty then 0
    else if s.data.contains 'T' then
      match parseEnd (s.replace "Z" "+00:00") with
      | none => 0
      | some endSec => if 0 < endSec - now ∧ endSec - now < 172800 then 10 else 0
    else 0

/-- The severity value accumulated by `score_event`, written as the sum of its
five sequential rule groups (type, status, road marker, lanes/description,
imminent end date). -/
def severityOf (parseEnd : String → Option Int) (now : Int) (e : Event) : Int :=
  typeScore e.type + statusScore e.status + roadScore e.road
    + laneScore (combinedText e) + endBonus parseEnd now e.endTime

/-- Models `score_event(event)`: sets the `severity` field and returns the event. -/
def score_event (parseEnd : String → Option Int) (now : Int) (e : Event) : Event :=
  { e with severity := severityOf parseEnd now e }

/-- The fixed page size `PAGE_SIZE = 1000` of the remote query protocol. -/
def PAGE_SIZE : Nat := 1000

/-- The hard page-count ceiling `MAX_PAGES = 20` of the paged query loop. -/
def MAX_PAGES : Nat := 20

/-- The remote service's response to one offset/limit query over a dataset of
matching records: `resultOffset = offset`, `resultRecordCount = count`. -/
def serve (records : List α) (offset count : Nat) : List α :=
  (records.drop offset).take count

/-- One iteration structure of the `for page in range(MAX_PAGES)` loop of
`arcgis_query_paged`: returns the accumulated features and the number of
requests issued.  `fuel` is the number of loop iterations remaining. -/
def arcgisQueryPagedGo (records : List α) : Nat → Nat → List α × Nat
  | 0, _ => ([], 0)
  | fuel + 1, offset =>
    let features := serve records offset PAGE_SIZE
    if features.isEmpty then ([], 1)
    else if features.length < PAGE_SIZE then (features, 1)
    else
      let rest := arcgisQueryPagedGo records fuel (offset + PAGE_SIZE)
      (features ++ rest.1, rest.2 + 1)

/-- Models `arcgis_query_paged` against a remote dataset of matching records,
also reporting how many page requests the loop issued. -/
def arcgis_query_paged (records : List α) : List α × Nat :=
  arcgisQueryPagedGo records MAX_PAGES 0

/-- The single per-layer fetch that `build_district` actually performs: one
request with `resultRecordCount = PAGE_SIZE` and no `resultOffset`, so the
service returns at most the first page of matching records. -/
def buildDistrictLayerFetch (records : List α) : List α :=
  serve records 0 PAGE_SIZE

/-- One raw feature of a query response: `properties` plus optional geometry. -/
structure RawFeature where
  props : Props
  geometry : Option Geom
deriving DecidableEq, Repr

/-- Net outcome of one HTTP query attempt, as distinguished by the code:
a feature list, a transport failure (exception raised), or a well-formed
error payload (`"error" in data`). -/
inductive LayerOutcome where
  | ok (feats : List RawFeature)
  | transportError (msg : String)
  | protocolError (msg : String)
deriving DecidableEq, Repr

/-- Warnings printed by the pipeline, abstracted from the `print` calls. -/
inductive Warn where
  | noBoundary (key : String)
  | layerQueryError (key layer msg : String)
deriving DecidableEq, Repr

/-- Models the alternate-URL fallback loop of `build_district`: first attempt
returning a non-empty feature list wins; transport failures (`except: pass`)
and error payloads are skipped silently. -/
def tryAlternates : List LayerOutcome → List RawFeature
  | [] => []
  | .ok fs :: rest => if fs.isEmpty then tryAlternates rest else fs
  | .transportError _ :: rest => tryAlternates rest
  | .protocolError _ :: rest => tryAlternates rest

/-- The primary query attempt plus the alternate-pattern attempts for one layer. -/
structure LayerQuery where
  primary : LayerOutcome
  alternates : List LayerOutcome
deriving DecidableEq, Repr

/-- Models one layer fetch of `build_district`: the primary request, falling
back to the alternate URL patterns whenever it produced no features.  Only a
transport error on the primary request prints a warning; an error payload is
silent, and so is every alternate-attempt failure. -/
def layerFetch (key layer : String) (q : LayerQuery) : List RawFeature × List Warn :=
  match q.primary with
  | .ok fs => if fs.isEmpty then (tryAlternates q.alternates, []) else (fs, [])
  | .transportError m => (tryAlternates q.alternates, [.layerQueryError key layer m])
  | .protocolError _ => (tryAlternates q.alternates, [])

/-- Event comparison used for the severity sort: `e₁` may precede `e₂` exactly
when its severity is at least as large (descending order). -/
def sevGe (e₁ e₂ : Event) : Bool :=
  e₂.severity ≤ e₁.severity

/-- Models `all_events.sort(key=lambda e: e["severity"], reverse=True)`:
the stable descending sort by severity. -/
def sortBySeverityDesc (l : List Event) : List Event :=
  stableSortBy sevGe l

/-- Persisted per-district cache file (`data/road/{district_key}.json`).
The generation timestamp is omitted: no claim concerns it. -/
structure DistrictCache where
  district_key : String
  counts_construction : Nat
  counts_closures : Nat
  counts_restrictions : Nat
  total : Nat
  top : List Event
  items : List Event
deriving DecidableEq, Repr

/-- Inputs of one district build: the key, whether a usable boundary geometry
was loaded (`none` models a missing boundary file, where the bounding-box
fallback also finds no file), and the network outcomes of the three fixed
layers in `LAYERS` iteration order (construction, closures, restrictions). -/
structure DistrictFetch where
  key : String
  boundary : Option Unit
  construction : LayerQuery
  closures : LayerQuery
  restrictions : LayerQuery
deriving DecidableEq, Repr

/-- Normalize and score every feature of one layer (`type` fixed by the layer). -/
def eventsOfLayer (parseEnd : String → Option Int) (now : Int)
    (layer_type : String) (feats : List RawFeature) : List Event :=
  feats.map (fun f => score_event parseEnd now (normalize_event f.props layer_type f.geometry))

/-- The merged event list of one district build in arrival order: the three
layers in `LAYERS` iteration order, each layer's features in response order. -/
def arrivalEvents (parseEnd : String → Option Int) (now : Int)
    (d : DistrictFetch) : List Event :=
  eventsOfLayer parseEnd now "construction" (layerFetch d.key "construction" d.construction).1
    ++ eventsOfLayer parseEnd now "closure" (layerFetch d.key "closures" d.closures).1
    ++ eventsOfLayer parseEnd now "restriction" (layerFetch d.key "restrictions" d.restrictions).1

/-- Models `build_district(district_key)`: returns the persisted cache (or
`none` when the district is skipped for want of a boundary) together with the
warnings printed along the way. -/
def build_district (parseEnd : String → Option Int) (now : Int)
    (d : DistrictFetch) : Option DistrictCache × List Warn :=
  match d.boundary with
  | none => (none, [.noBoundary d.key])
  | some _ =>
    let fc := layerFetch d.key "construction" d.construction
    let fl := layerFetch d.key "closures" d.closures
    let fr := layerFetch d.key "restrictions" d.restrictions
    let all_events := arrivalEvents parseEnd now d
    let sortedE := sortBySeverityDesc all_events
    (some
      { district_key := d.key
        counts_construction := fc.1.length
        counts_closures := fl.1.length
        counts_restrictions := fr.1.length
        total := fc.1.length + fl.1.length + fr.1.length
        top := sortedE.take 10
        items := sortedE },
      fc.2 ++ fl.2 ++ fr.2)

/-- Models the all-districts loop of `main`: every district is attempted in
order and its result recorded; warnings accumulate across districts. -/
def runBatch (parseEnd : String → Option Int) (now : Int)
    (districts : List DistrictFetch) : List (String × Option DistrictCache) × List Warn :=
  match districts with
  | [] => ([], [])
  | d :: rest =>
    let r := build_district parseEnd now d
    let rs := runBatch parseEnd now rest
    ((d.key, r.1) :: rs.1, r.2 ++ rs.2)

/-- On-disk content of one per-district cache file as the aggregator reads it:
its key and either its `items` list or a read/parse failure (`MalformedCacheFile`). -/
abbrev CacheFile := String × Except Unit (List Event)

/-- Models the inner per-file loop of `build_statewide_senators`: append the
file's not-yet-seen events (skipping falsy ids), tagging each with the source
district key; returns the appended events and the updated seen-id set. -/
def addFileEvents (k : String) (seen : List String) : List Event → List Event × List String
  | [] => ([], seen)
  | e :: es =>
    if e.id ≠ "" ∧ e.id ∉ seen then
      let r := addFileEvents k (e.id :: seen) es
      ({ e with sourceDistrict := some k } :: r.1, r.2)
    else addFileEvents k seen es

/-- Models the file scan of `build_statewide_senators` over the sorted cache
files: the statewide key is skipped, a malformed file is skipped by the bare
`except: pass` (emitting no warning), and each surviving event keeps the tag of
the first file it was seen in.  Returns events and emitted warnings. -/
def scanCaches (seen : List String) : List CacheFile → List Event × List Warn
  | [] => ([], [])
  | (k, c) :: rest =>
    if k = "US-IL-SEN" then scanCaches seen rest
    else
      match c with
      | .error _ => scanCaches seen rest
      | .ok evts =>
        let r := addFileEvents k seen evts
        let rs := scanCaches r.2 rest
        (r.1 ++ rs.1, rs.2)

/-- The key of the first scanned cache file that contains an event with id
`eid` (skipping the statewide file and malformed files), if any. -/
def firstOwner (eid : String) : List CacheFile → Option String
  | [] => none
  | (k, c) :: rest =>
    if k = "US-IL-SEN" then firstOwner eid rest
    else
      match c with
      | .error _ => firstOwner eid rest
      | .ok evts => if evts.any (fun e => e.id = eid) then some k else firstOwner eid rest

/-- Models `sorted(glob.glob(...))`: the directory listing in sorted key order. -/
def sortFilesByKey (files : List CacheFile) : List CacheFile :=
  stableSortBy (fun a b => pyStrLe a.1 b.1) files

/-- The deduplicated, tagged union of all district cache events, in scan order. -/
def aggregateEvents (files : List CacheFile) : List Event :=
  (scanCaches [] (sortFilesByKey files)).1

/-- Models `build_statewide_senators()` over the given directory contents:
the persisted statewide cache plus the warnings printed while scanning. -/
def build_statewide_senators (files : List CacheFile) : DistrictCache × List Warn :=
  let scanned := scanCaches [] (sortFilesByKey files)
  let all_events := scanned.1
  let sortedE := sortBySeverityDesc all_events
  ({ district_key := "US-IL-SEN"
     counts_construction := all_events.countP (fun e => e.type = "construction")
     counts_closures := all_events.countP (fun e => e.type = "closure")
     counts_restrictions := all_events.countP (fun e => e.type = "restriction")
     total := all_events.length
     top := sortedE.take 5
     items := sortedE.take 50 },
   scanned.2)

/-- The top-level actions `main()` can perform, in execution order. -/
inductive MainAction where
  | exitNoBoundaries
  | buildDistrict (key : String)
  | buildStatewide
deriving DecidableEq, Repr

/-- Models the dispatch of `main()`: `boundaryKeys` are the district keys of
the boundary files found on disk, `argv1` is `sys.argv[1]` when present. -/
def mainActions (boundaryKeys : List String) (argv1 : Option String) : List MainAction :=
  if boundaryKeys.isEmpty then [.exitNoBoundaries]
  else
    match argv1 with
    | some t =>
      if t = "--statewide-only" then [.buildStatewide]
      else [.buildDistrict t, .buildStatewide]
    | none =>
      ((stableSortBy pyStrLe boundaryKeys).map .buildDistrict) ++ [.buildStatewide]

/-- The three source-layer event types, as fixed by the `LAYERS` table. -/
def layerTypes : List String := ["construction", "closure", "restriction"]

/-- Status classification phrased the way the specification states it:
case-insensitive substring matching of the keyword buckets, checked in the
order active → planned → ended, over the lower-cased raw status string. -/
def statusSpecBucket (raw : String) : String :=
  let s := (pyLower raw).data
  if ∃ w ∈ activeWords, w.data <:+: s then "active"
  else if ∃ w ∈ plannedWords, w.data <:+: s then "planned"
  else if ∃ w ∈ endedWords, w.data <:+: s then "ended"
  else "unknown"

/-- The raw properties of the specification's scoring scenario. -/
def c6props : Props :=
  [("Status", .str "Active construction"), ("Route", .str "I-90"),
   ("ImpactOnTravel", .str "All lanes closed")]

/-- A concrete normalized event used by witnesses and counterexamples. -/
def baseEvent : Event :=
  { id := "closure:1", type := "closure", status := "unknown", road := "",
    direction := "", location_text := "", county := "", description := "",
    lanes := "", start := none, endTime := none, last_updated := none,
    lat := none, lon := none,
    source_url := "https://www.gettingaroundillinois.com/", severity := 0,
    raw_status := "", source_layer := "closure" }

/-- Two district cache files holding the same event (a boundary overlap),
listed out of sorted key order. -/
def overlapFiles : List CacheFile :=
  [("US-IL-CD-02", .ok [baseEvent]), ("US-IL-CD-01", .ok [baseEvent])]

/-- A district build input whose boundary loads and whose layer queries all
succeed with zero features. -/
def emptyFetch : DistrictFetch :=
  { key := "US-IL-CD-05", boundary := some (),
    construction := ⟨.ok [], []⟩, closures := ⟨.ok [], []⟩,
    restrictions := ⟨.ok [], []⟩ }

/-- The cache `emptyFetch` persists. -/
def emptyCache : DistrictCache :=
  { district_key := "US-IL-CD-05", counts_construction := 0, counts_closures := 0,
    counts_restrictions := 0, total := 0, top := [], items := [] }

/-- A district build input whose boundary file is missing. -/
def noBoundaryFetch : DistrictFetch :=
  { key := "US-IL-CD-07", boundary := none,
    construction := ⟨.ok [], []⟩, closures := ⟨.ok [], []⟩,
    restrictions := ⟨.ok [], []⟩ }

/-- A district build input whose closures layer returns a well-formed error
payload (`"error" in data`) and whose alternate attempts yield nothing. -/
def protocolErrorFetch : DistrictFetch :=
  { key := "US-IL-CD-03", boundary := some (),
    construction := ⟨.ok [], []⟩,
    closures := ⟨.protocolError "invalid geometry", []⟩,
    restrictions := ⟨.ok [], []⟩ }

/-- A district build input whose closures layer raises a transport error and
whose alternate attempts yield nothing. -/
def transportErrorFetch : DistrictFetch :=
  { key := "US-IL-CD-09", boundary := some (),
    construction := ⟨.ok [], []⟩,
    closures := ⟨.transportError "timeout", []⟩,
    restrictions := ⟨.ok [], []⟩ }

/-! ## Theorems -/

/-- The boolean substring test agrees with the infix relation. -/
theorem charsInfix_iff (n h : List Char) : charsInfix n h = true ↔ n <:+: h := by
  induction h with
  | nil =>
    simp [charsInfix, List.isEmpty_iff]
  | cons c rest ih =>
    simp [charsInfix, List.infix_cons_iff, List.isPrefixOf_iff_prefix, ih, Bool.or_eq_true]

/-- Python `needle in hay` agrees with the infix relation on character data. -/
theorem pyIn_iff (n h : String) : pyIn n h = true ↔ n.data <:+: h.data :=
  charsInfix_iff n.data h.data

/-- The bucket test of `classify_status` agrees with the specification's
"some keyword of the bucket occurs as a substring" reading. -/
theorem anyWordIn_iff (ws : List String) (s : String) :
    anyWordIn ws s = true ↔ ∃ w ∈ ws, w.data <:+: s.data := by
  simp [anyWordIn, List.any_eq_true, pyIn_iff]

/-- C5: for every upstream record, the normalized status is computed by
case-insensitive substring matching of the lower-cased raw status string
against the three keyword buckets in the order active → planned → ended,
with `"unknown"` when no bucket matches (so a raw status matching both the
active and the ended bucket classifies as active). -/
theorem c5_status_classification (p : Props) (t : String) (g : Option Geom) :
    (normalize_event p t g).status = statusSpecBucket (orKeysStr p ["Status", "STATUS"]) := by
  show classify_status (pyLower (orKeysStr p ["Status", "STATUS"]))
      = statusSpecBucket (orKeysStr p ["Status", "STATUS"])
  generalize orKeysStr p ["Status", "STATUS"] = raw
  unfold classify_status statusSpecBucket
  by_cases ha : ∃ w ∈ activeWords, w.data <:+: (pyLower raw).data
  · rw [if_pos ((anyWordIn_iff _ _).mpr ha), if_pos ha]
  · rw [if_neg (fun h => ha ((anyWordIn_iff _ _).mp h)), if_neg ha]
    by_cases hp : ∃ w ∈ plannedWords, w.data <:+: (pyLower raw).data
    · rw [if_pos ((anyWordIn_iff _ _).mpr hp), if_pos hp]
    · rw [if_neg (fun h => hp ((anyWordIn_iff _ _).mp h)), if_neg hp]
      by_cases he : ∃ w ∈ endedWords, w.data <:+: (pyLower raw).data
      · rw [if_pos ((anyWordIn_iff _ _).mpr he), if_pos he]
      · rw [if_neg (fun h => he ((anyWordIn_iff _ _).mp h)), if_neg he]

/-- C6: the record with `Status="Active construction"`, `Route="I-90"`,
`ImpactOnTravel="All lanes closed"` from the closure layer normalizes and
scores to severity exactly 115 = 60 (closure) + 20 (active) + 15 (interstate)
+ 20 (all lanes); the combined lanes+description text also contains
`"closed"`, but the first-match-wins lane group awards the `"all lanes"` +20
rule, not the `"closed"` +10 rule. -/
theorem c6_scenario_severity_115 (parseEnd : String → Option Int) (now : Int) :
    (score_event parseEnd now (normalize_event c6props "closure" none)).severity = 115
      ∧ laneScore (combinedText (normalize_event c6props "closure" none)) = 20
      ∧ pyIn "closed" (combinedText (normalize_event c6props "closure" none)) = true := by
  exact ⟨rfl, rfl, rfl⟩

/-- C2 counterexample: invoked with the single district-key argument
`US-IL-CD-05`, `main` performs the district build **and then the statewide
aggregate rebuild**, so the aggregate is rebuilt in that mode. -/
theorem c2_counterexample :
    mainActions ["US-IL-CD-05"] (some "US-IL-CD-05")
        = [.buildDistrict "US-IL-CD-05", .buildStatewide]
      ∧ MainAction.buildStatewide ∈ mainActions ["US-IL-CD-05"] (some "US-IL-CD-05") := by
  exact ⟨rfl, by decide⟩

/-- C2 amended: when the ingestion tool is invoked with exactly one
district-key argument (not the aggregate-only flag) and boundary files exist,
it rebuilds that district **and then also rebuilds the statewide aggregate
cache**. -/
theorem c2_single_district_also_rebuilds_statewide (keys : List String) (k : String)
    (h1 : keys ≠ []) (h2 : k ≠ "--statewide-only") :
    mainActions keys (some k) = [.buildDistrict k, .buildStatewide] := by
  unfold mainActions
  rw [if_neg (by simpa [List.isEmpty_iff] using h1)]
  simp [h2]

/-- Witness for the amended C2 at a concrete invocation. -/
theorem c2_witness :
    mainActions ["US-IL-CD-05"] (some "US-IL-CD-05")
      = [.buildDistrict "US-IL-CD-05", .buildStatewide] :=
  c2_single_district_also_rebuilds_statewide ["US-IL-CD-05"] "US-IL-CD-05"
    (by decide) (by decide)

/-- Length of one page response. -/
theorem serve_length (records : List α) (offset count : Nat) :
    (serve records offset count).length = min count (records.length - offset) := by
  simp [serve, List.length_take, List.length_drop]

/-- One unfolding step of the paged loop. -/
theorem arcgisQueryPagedGo_succ (records : List α) (f offset : Nat) :
    arcgisQueryPagedGo records (f + 1) offset =
      if (serve records offset PAGE_SIZE).isEmpty then ([], 1)
      else if (serve records offset PAGE_SIZE).length < PAGE_SIZE then
        (serve records offset PAGE_SIZE, 1)
      else (serve records offset PAGE_SIZE
              ++ (arcgisQueryPagedGo records f (offset + PAGE_SIZE)).1,
            (arcgisQueryPagedGo records f (offset + PAGE_SIZE)).2 + 1) := rfl

/-- The paged loop issues at most `fuel` requests. -/
theorem arcgisQueryPagedGo_reqs_le (records : List α) :
    ∀ fuel offset, (arcgisQueryPagedGo records fuel offset).2 ≤ fuel := by
  intro fuel
  induction fuel with
  | zero => intro offset; exact Nat.le_refl 0
  | succ f ih =>
    intro offset
    rw [arcgisQueryPagedGo_succ]
    by_cases h1 : (serve records offset PAGE_SIZE).isEmpty
    · rw [if_pos h1]; exact Nat.succ_le_succ (Nat.zero_le f)
    · rw [if_neg h1]
      by_cases h2 : (serve records offset PAGE_SIZE).length < PAGE_SIZE
      · rw [if_pos h2]; exact Nat.succ_le_succ (Nat.zero_le f)
      · rw [if_neg h2]
        exact Nat.succ_le_succ (ih (offset + PAGE_SIZE))

/-- When the whole remainder fits in the remaining fuel, the loop accumulates
every record from the current offset onward. -/
theorem arcgisQueryPagedGo_full (records : List α) :
    ∀ fuel offset, records.length ≤ offset + fuel * PAGE_SIZE →
      (arcgisQueryPagedGo records fuel offset).1 = records.drop offset := by
  intro fuel
  induction fuel with
  | zero =>
    intro offset h
    simp only [Nat.zero_mul, Nat.add_zero] at h
    show ([] : List α) = records.drop offset
    exact (List.drop_eq_nil_of_le h).symm
  | succ f ih =>
    intro offset h
    rw [arcgisQueryPagedGo_succ]
    by_cases h1 : (serve records offset PAGE_SIZE).isEmpty
    · rw [if_pos h1]
      have hnil : records.drop offset = [] := by
        rcases List.take_eq_nil_iff.mp (List.isEmpty_iff.mp h1) with h0 | h0
        · exact absurd h0 (by simp [PAGE_SIZE])
        · exact h0
      exact hnil.symm
    · rw [if_neg h1]
      by_cases h2 : (serve records offset PAGE_SIZE).length < PAGE_SIZE
      · rw [if_pos h2]
        rw [serve_length] at h2
        show (records.drop offset).take PAGE_SIZE = records.drop offset
        exact List.take_of_length_le (by rw [List.length_drop]; omega)
      · rw [if_neg h2]
        show serve records offset PAGE_SIZE
            ++ (arcgisQueryPagedGo records f (offset + PAGE_SIZE)).1 = records.drop offset
        rw [ih (offset + PAGE_SIZE) (by simp only [PAGE_SIZE] at h ⊢; omega)]
        show (records.drop offset).take PAGE_SIZE ++ records.drop (offset + PAGE_SIZE)
            = records.drop offset
        rw [← List.drop_drop, List.take_append_drop]

/-- When the remainder from the current offset is exactly `k` full pages and
`k < fuel`, the loop issues exactly `k + 1` requests (the last one empty) and
accumulates every record. -/
theorem arcgisQueryPagedGo_exact (records : List α) :
    ∀ k fuel offset, k < fuel → records.length = offset + k * PAGE_SIZE →
      arcgisQueryPagedGo records fuel offset = (records.drop offset, k + 1) := by
  intro k
  induction k with
  | zero =>
    intro fuel offset hk hlen
    obtain ⟨f, rfl⟩ : ∃ f, fuel = f + 1 := ⟨fuel - 1, by omega⟩
    have hnil : records.drop offset = [] :=
      List.drop_eq_nil_of_le (by omega)
    have hempty : (serve records offset PAGE_SIZE).isEmpty = true := by
      simp [serve, hnil]
    rw [arcgisQueryPagedGo_succ, if_pos hempty, hnil]
  | succ k ih =>
    intro fuel offset hk hlen
    obtain ⟨f, rfl⟩ : ∃ f, fuel = f + 1 := ⟨fuel - 1, by omega⟩
    have hlenf : (serve records offset PAGE_SIZE).length = PAGE_SIZE := by
      rw [serve_length, hlen]
      simp only [PAGE_SIZE]
      omega
    have hempty : (serve records offset PAGE_SIZE).isEmpty = false := by
      rcases hv : (serve records offset PAGE_SIZE).isEmpty with _ | _
      · rfl
      · rw [List.isEmpty_iff.mp hv] at hlenf
        exact absurd hlenf.symm (by simp [PAGE_SIZE])
    have hrec := ih f (offset + PAGE_SIZE) (by omega)
      (by rw [hlen]; simp only [PAGE_SIZE]; ring)
    rw [arcgisQueryPagedGo_succ, if_neg (by simp [hempty]),
      if_neg (by simp [hlenf]), hrec]
    show ((records.drop offset).take PAGE_SIZE ++ records.drop (offset + PAGE_SIZE), k + 1 + 1)
        = (records.drop offset, k + 1 + 1)
    rw [← List.drop_drop, List.take_append_drop]

/-- When there are at least `fuel` full pages left, the loop spends all its
fuel: exactly `fuel` requests, each returning a full page. -/
theorem arcgisQueryPagedGo_saturates (records : List α) :
    ∀ fuel offset, offset + fuel * PAGE_SIZE ≤ records.length →
      (arcgisQueryPagedGo records fuel offset).2 = fuel := by
  intro fuel
  induction fuel with
  | zero => intro offset _; rfl
  | succ f ih =>
    intro offset h
    have hlenf : (serve records offset PAGE_SIZE).length = PAGE_SIZE := by
      rw [serve_length]
      simp only [PAGE_SIZE] at h ⊢
      omega
    have hempty : (serve records offset PAGE_SIZE).isEmpty = false := by
      rcases hv : (serve records offset PAGE_SIZE).isEmpty with _ | _
      · rfl
      · rw [List.isEmpty_iff.mp hv] at hlenf
        exact absurd hlenf.symm (by simp [PAGE_SIZE])
    have hrec := ih (offset + PAGE_SIZE) (by simp only [PAGE_SIZE] at h ⊢; omega)
    rw [arcgisQueryPagedGo_succ, if_neg (by simp [hempty]), if_neg (by simp [hlenf])]
    show (arcgisQueryPagedGo records f (offset + PAGE_SIZE)).2 + 1 = f + 1
    rw [hrec]

/-- C1: `build_district` issues a single per-layer request capped at
`PAGE_SIZE`, so against a layer holding 1001 matching records it obtains only
the first 1000, while the (never-invoked) paged helper `arcgis_query_paged`
does retrieve all 1001. -/
theorem c1_builder_fetch_truncates :
    (buildDistrictLayerFetch (List.replicate 1001 ())).length = 1000
      ∧ (List.replicate 1001 ()).length = 1001
      ∧ (arcgis_query_paged (List.replicate 1001 ())).1 = List.replicate 1001 () := by
  refine ⟨?_, by simp only [List.length_replicate], ?_⟩
  · rw [buildDistrictLayerFetch, serve_length]
    simp only [List.length_replicate, PAGE_SIZE]
    omega
  · unfold arcgis_query_paged
    rw [arcgisQueryPagedGo_full _ MAX_PAGES 0
      (by simp only [List.length_replicate, PAGE_SIZE, MAX_PAGES]; omega)]
    rw [List.drop_zero]

/-- C4 counterexample: a dataset of exactly `20 × PAGE_SIZE` matching records
is an exact multiple of the page size, yet the loop issues exactly 20
requests — each returning a full page, as shown by the complete accumulation —
and never the additional zero-record request the claim demands (which would be
request 21), because the hard page ceiling ends the loop first. -/
theorem c4_counterexample :
    (List.replicate 20000 ()).length = 20 * PAGE_SIZE
      ∧ (arcgis_query_paged (List.replicate 20000 ())).2 = 20
      ∧ (arcgis_query_paged (List.replicate 20000 ())).1 = List.replicate 20000 () := by
  refine ⟨by simp only [List.length_replicate, PAGE_SIZE]; try omega, ?_, ?_⟩
  · unfold arcgis_query_paged
    rw [show MAX_PAGES = 20 from rfl,
      arcgisQueryPagedGo_saturates _ 20 0
        (by simp only [List.length_replicate, PAGE_SIZE]; omega)]
  · unfold arcgis_query_paged
    rw [arcgisQueryPagedGo_full _ MAX_PAGES 0
      (by simp only [List.length_replicate, PAGE_SIZE, MAX_PAGES]; omega)]
    rw [List.drop_zero]

/-- C4 amended: the paged loop always terminates after at most `MAX_PAGES`
(20) requests; and when the total number of matching records is an exact
multiple `m × PAGE_SIZE` of the page size with `m < MAX_PAGES`, the loop
issues exactly `m + 1` requests, the final one returning zero records, with
every record from the earlier pages accumulated and none lost.  (At exactly
`MAX_PAGES × PAGE_SIZE` records the page ceiling terminates the loop after 20
full-page requests without the additional empty request.) -/
theorem c4_pagination_terminates (records : List α) (m : Nat)
    (h1 : m < MAX_PAGES) (h2 : records.length = m * PAGE_SIZE) :
    arcgis_query_paged records = (records, m + 1)
      ∧ serve records (m * PAGE_SIZE) PAGE_SIZE = []
      ∧ ∀ rs : List α, (arcgis_query_paged rs).2 ≤ MAX_PAGES := by
  refine ⟨?_, ?_, fun rs => arcgisQueryPagedGo_reqs_le rs MAX_PAGES 0⟩
  · unfold arcgis_query_paged
    rw [arcgisQueryPagedGo_exact records m MAX_PAGES 0 h1 (by rw [Nat.zero_add]; exact h2)]
    rw [List.drop_zero]
  · simp [serve, List.drop_eq_nil_of_le (le_of_eq h2)]

/-- Witness for the amended C4: 1000 records (one exact page) are retrieved
with exactly two requests. -/
theorem c4_witness :
    arcgis_query_paged (List.replicate 1000 ()) = (List.replicate 1000 (), 2) :=
  (c4_pagination_terminates (List.replicate 1000 ()) 1 (by decide)
    (by simp only [List.length_replicate, PAGE_SIZE]; try omega)).1

/-- Inserting stably yields a permutation of consing. -/
theorem stableInsert_perm (le : α → α → Bool) (a : α) (l : List α) :
    (stableInsert le a l).Perm (a :: l) := by
  induction l with
  | nil => exact List.Perm.refl _
  | cons b m ih =>
    unfold stableInsert
    by_cases h : le a b = true
    · rw [if_pos h]
    · rw [if_neg h]
      exact (List.Perm.cons b ih).trans (List.Perm.swap a b m)

/-- The stable sort is a permutation of its input. -/
theorem stableSortBy_perm (le : α → α → Bool) (l : List α) :
    (stableSortBy le l).Perm l := by
  induction l with
  | nil => exact List.Perm.refl _
  | cons x m ih =>
    exact (stableInsert_perm le x (stableSortBy le m)).trans (List.Perm.cons x ih)

/-- Stable insertion preserves sortedness for a total transitive comparison. -/
theorem stableInsert_pairwise (le : α → α → Bool)
    (htot : ∀ x y, le x y = true ∨ le y x = true)
    (htrans : ∀ x y z, le x y = true → le y z = true → le x z = true)
    (a : α) (l : List α) (hl : l.Pairwise (fun x y => le x y = true)) :
    (stableInsert le a l).Pairwise (fun x y => le x y = true) := by
  induction l with
  | nil => simp [stableInsert]
  | cons b m ih =>
    rcases List.pairwise_cons.mp hl with ⟨hb, hm⟩
    unfold stableInsert
    by_cases h : le a b = true
    · rw [if_pos h]
      refine List.pairwise_cons.mpr ⟨?_, hl⟩
      intro y hy
      rcases List.mem_cons.mp hy with rfl | hy'
      · exact h
      · exact htrans a b y h (hb y hy')
    · rw [if_neg h]
      refine List.pairwise_cons.mpr ⟨?_, ih hm⟩
      intro y hy
      rcases List.mem_cons.mp ((stableInsert_perm le a m).mem_iff.mp hy) with hya | hy'
      · rcases htot a b with hab | hba
        · exact absurd hab h
        · rw [hya]; exact hba
      · exact hb y hy'

/-- The stable sort is sorted for a total transitive comparison. -/
theorem stableSortBy_pairwise (le : α → α → Bool)
    (htot : ∀ x y, le x y = true ∨ le y x = true)
    (htrans : ∀ x y z, le x y = true → le y z = true → le x z = true)
    (l : List α) :
    (stableSortBy le l).Pairwise (fun x y => le x y = true) := by
  induction l with
  | nil => exact List.Pairwise.nil
  | cons x m ih => exact stableInsert_pairwise le htot htrans x _ ih

/-- Stable insertion commutes with filtering by a predicate that selects one
equivalence class of the comparison. -/
theorem filter_stableInsert (le : α → α → Bool) (p : α → Bool) (a : α) (l : List α)
    (hcl : ∀ b, p a = true → p b = true → le a b = true) :
    (stableInsert le a l).filter p
      = if p a then a :: l.filter p else l.filter p := by
  induction l with
  | nil =>
    rcases hv : p a with _ | _ <;> simp [stableInsert, List.filter, hv]
  | cons b m ih =>
    unfold stableInsert
    by_cases h : le a b = true
    · rw [if_pos h, List.filter_cons]
    · rw [if_neg h]
      by_cases hpa : p a = true
      · have hpb : p b = false := by
          rcases hv : p b with _ | _
          · rfl
          · exact absurd (hcl b hpa hv) h
        simp [List.filter_cons, hpb, ih, hpa]
      · simp only [List.filter_cons, ih, if_neg hpa]

/-- Stability of the stable sort, phrased through filters: the subsequence of
any one equivalence class of the comparison is exactly its subsequence in the
input (original arrival order preserved among ties). -/
theorem filter_stableSortBy (le : α → α → Bool) (p : α → Bool)
    (hcl : ∀ x y, p x = true → p y = true → le x y = true) (l : List α) :
    (stableSortBy le l).filter p = l.filter p := by
  induction l with
  | nil => rfl
  | cons x m ih =>
    show (stableInsert le x (stableSortBy le m)).filter p = (x :: m).filter p
    rw [filter_stableInsert le p x _ (fun b => hcl x b), ih, List.filter_cons]

/-- The severity comparison is total. -/
theorem sevGe_total (x y : Event) : sevGe x y = true ∨ sevGe y x = true := by
  unfold sevGe
  rcases Int.le_total y.severity x.severity with h | h
  · exact Or.inl (decide_eq_true h)
  · exact Or.inr (decide_eq_true h)

/-- The severity comparison is transitive. -/
theorem sevGe_trans (x y z : Event) (h1 : sevGe x y = true) (h2 : sevGe y z = true) :
    sevGe x z = true := by
  unfold sevGe at *
  exact decide_eq_true (le_trans (of_decide_eq_true h2) (of_decide_eq_true h1))

/-- Each score group is nonnegative: the event type group. -/
theorem typeScore_nonneg (t : String) : 0 ≤ typeScore t := by
  unfold typeScore; split_ifs <;> norm_num

/-- Each score group is nonnegative: the status group. -/
theorem statusScore_nonneg (s : String) : 0 ≤ statusScore s := by
  unfold statusScore; split_ifs <;> norm_num

/-- The status group never exceeds the active bonus. -/
theorem statusScore_le (s : String) : statusScore s ≤ 20 := by
  unfold statusScore; split_ifs <;> norm_num

/-- Each score group is nonnegative: the road-marker group. -/
theorem roadScore_nonneg (road : String) : 0 ≤ roadScore road := by
  unfold roadScore; split_ifs <;> norm_num

/-- Each score group is nonnegative: the lanes/description group. -/
theorem laneScore_nonneg (combined : String) : 0 ≤ laneScore combined := by
  unfold laneScore; split_ifs <;> norm_num

/-- Each score group is nonnegative: the imminent-end-date group. -/
theorem endBonus_nonneg (parseEnd : String → Option Int) (now : Int)
    (e : Option String) : 0 ≤ endBonus parseEnd now e := by
  rcases e with _ | s
  · exact le_refl 0
  · have hm : ∀ o : Option Int, (0 : Int) ≤
        (match o with
         | none => 0
         | some endSec => if 0 < endSec - now ∧ endSec - now < 172800 then 10 else 0) := by
      intro o
      rcases o with _ | v
      · exact le_refl 0
      · show (0 : Int) ≤ if 0 < v - now ∧ v - now < 172800 then 10 else 0
        split_ifs <;> norm_num
    show (0 : Int) ≤
      (if s.isEmpty then 0
       else if s.data.contains 'T' then
         match parseEnd (s.replace "Z" "+00:00") with
         | none => 0
         | some endSec => if 0 < endSec - now ∧ endSec - now < 172800 then 10 else 0
       else 0)
    split_ifs <;> first
      | exact le_refl 0
      | exact hm (parseEnd (s.replace "Z" "+00:00"))

/-- C7: every computed severity is nonnegative; the severity is the sum of the
five rule groups, so raising any single group — for example setting the status
to active, or moving the combined lanes+description text to a higher rule of
its first-match-wins group — while the other groups are unchanged never
decreases the score. -/
theorem c7_severity_nonneg_monotone (parseEnd : String → Option Int) (now : Int) :
    (∀ e : Event, 0 ≤ severityOf parseEnd now e)
      ∧ (∀ e : Event, severityOf parseEnd now e
          ≤ severityOf parseEnd now { e with status := "active" })
      ∧ (∀ e₁ e₂ : Event, typeScore e₁.type ≤ typeScore e₂.type →
          statusScore e₁.status ≤ statusScore e₂.status →
          roadScore e₁.road ≤ roadScore e₂.road →
          laneScore (combinedText e₁) ≤ laneScore (combinedText e₂) →
          endBonus parseEnd now e₁.endTime ≤ endBonus parseEnd now e₂.endTime →
          severityOf parseEnd now e₁ ≤ severityOf parseEnd now e₂) := by
  refine ⟨?_, ?_, ?_⟩
  · intro e
    unfold severityOf
    have h1 := typeScore_nonneg e.type
    have h2 := statusScore_nonneg e.status
    have h3 := roadScore_nonneg e.road
    have h4 := laneScore_nonneg (combinedText e)
    have h5 := endBonus_nonneg parseEnd now e.endTime
    omega
  · intro e
    have ht : ({ e with status := "active" } : Event).type = e.type := rfl
    have hs : ({ e with status := "active" } : Event).status = "active" := rfl
    have hr : ({ e with status := "active" } : Event).road = e.road := rfl
    have hd : ({ e with status := "active" } : Event).endTime = e.endTime := rfl
    have hcb : combinedText { e with status := "active" } = combinedText e := rfl
    unfold severityOf
    rw [ht, hs, hr, hd, hcb]
    have h1 : statusScore e.status ≤ 20 := statusScore_le e.status
    have h2 : statusScore "active" = 20 := rfl
    omega
  · intro e₁ e₂ h1 h2 h3 h4 h5
    unfold severityOf
    omega

/-- Witness for C7: monotonicity applied to a concrete pair of events that
differ only by activating the status. -/
theorem c7_witness :
    severityOf (fun _ => none) 0 baseEvent
      ≤ severityOf (fun _ => none) 0 { baseEvent with status := "active" } :=
  (c7_severity_nonneg_monotone (fun _ => none) 0).2.2 baseEvent
    { baseEvent with status := "active" }
    (by decide) (by decide) (by decide) (by decide) (by decide)

/-- C8: in every persisted per-district cache, the full event list is sorted
by severity descending, events of equal severity keep their original arrival
order (layer merge order, response order within a layer), and the top list is
exactly the first 10 elements of the sorted list. -/
theorem c8_district_cache_sorted_stable_top10 (parseEnd : String → Option Int)
    (now : Int) (d : DistrictFetch) (c : DistrictCache)
    (hc : (build_district parseEnd now d).1 = some c) :
    c.items.Pairwise (fun a b => b.severity ≤ a.severity)
      ∧ (∀ s : Int, c.items.filter (fun e => e.severity = s)
          = (arrivalEvents parseEnd now d).filter (fun e => e.severity = s))
      ∧ c.items.Perm (arrivalEvents parseEnd now d)
      ∧ c.top = c.items.take 10 := by
  rcases hb : d.boundary with _ | u
  · unfold build_district at hc
    rw [hb] at hc
    exact absurd hc (by simp)
  · unfold build_district at hc
    rw [hb] at hc
    have hcv := Option.some.inj hc
    subst hcv
    refine ⟨?_, ?_, ?_, rfl⟩
    · exact (stableSortBy_pairwise sevGe sevGe_total sevGe_trans _).imp
        (fun h => of_decide_eq_true h)
    · intro s
      exact filter_stableSortBy sevGe (fun e => decide (e.severity = s))
        (fun x y hx hy => decide_eq_true (by
          rw [of_decide_eq_true hx, of_decide_eq_true hy])) _
    · exact stableSortBy_perm sevGe _

/-- Witness for C8 at a concrete district build. -/
theorem c8_witness :
    (build_district (fun _ => none) 0 emptyFetch).1 = some emptyCache
      ∧ emptyCache.top = emptyCache.items.take 10 :=
  ⟨rfl, (c8_district_cache_sorted_stable_top10 (fun _ => none) 0 emptyFetch
    emptyCache rfl).2.2.2⟩

/-- One unfolding step of the aggregator's file scan. -/
theorem scanCaches_cons (seen : List String) (k : String) (c : Except Unit (List Event))
    (rest : List CacheFile) :
    scanCaches seen ((k, c) :: rest)
      = if k = "US-IL-SEN" then scanCaches seen rest
        else
          match c with
          | .error _ => scanCaches seen rest
          | .ok evts =>
            ((addFileEvents k seen evts).1
                ++ (scanCaches (addFileEvents k seen evts).2 rest).1,
              (scanCaches (addFileEvents k seen evts).2 rest).2) := rfl

/-- One unfolding step of `firstOwner`. -/
theorem firstOwner_cons (eid : String) (k : String) (c : Except Unit (List Event))
    (rest : List CacheFile) :
    firstOwner eid ((k, c) :: rest)
      = if k = "US-IL-SEN" then firstOwner eid rest
        else
          match c with
          | .error _ => firstOwner eid rest
          | .ok evts =>
            if evts.any (fun e => e.id = eid) then some k else firstOwner eid rest := rfl

/-- The aggregator's file scan never emits a warning (the bare `except: pass`). -/
theorem scanCaches_warns (files : List CacheFile) :
    ∀ seen, (scanCaches seen files).2 = [] := by
  induction files with
  | nil => intro seen; rfl
  | cons f rest ih =>
    intro seen
    rcases f with ⟨k, c⟩
    rw [scanCaches_cons]
    by_cases hk : k = "US-IL-SEN"
    · rw [if_pos hk]; exact ih seen
    · rw [if_neg hk]
      rcases c with u | evts
      · exact ih seen
      · exact ih _

/-- A malformed cache file is skipped: the scan of any listing containing it
equals the scan of the listing without it. -/
theorem scanCaches_skips_malformed (pre : List CacheFile) :
    ∀ (seen : List String) (post : List CacheFile) (k : String) (u : Unit),
      scanCaches seen (pre ++ (k, Except.error u) :: post)
        = scanCaches seen (pre ++ post) := by
  induction pre with
  | nil =>
    intro seen post k u
    simp only [List.nil_append, scanCaches_cons]
    split <;> rfl
  | cons f pre' ih =>
    intro seen post k u
    rcases f with ⟨k', c'⟩
    simp only [List.cons_append, scanCaches_cons]
    by_cases hk' : k' = "US-IL-SEN"
    · rw [if_pos hk', if_pos hk']
      exact ih seen post k u
    · rw [if_neg hk', if_neg hk']
      rcases c' with u' | evts'
      · exact ih seen post k u
      · dsimp only
        rw [ih _ post k u]

/-- Step equation for the batch loop. -/
theorem runBatch_cons (parseEnd : String → Option Int) (now : Int)
    (d : DistrictFetch) (rest : List DistrictFetch) :
    runBatch parseEnd now (d :: rest)
      = ((d.key, (build_district parseEnd now d).1) :: (runBatch parseEnd now rest).1,
         (build_district parseEnd now d).2 ++ (runBatch parseEnd now rest).2) := rfl

/-- A district without a boundary is skipped with a warning. -/
theorem build_district_boundary_none (parseEnd : String → Option Int) (now : Int)
    (d : DistrictFetch) (h : d.boundary = none) :
    build_district parseEnd now d = (none, [Warn.noBoundary d.key]) := by
  unfold build_district
  rw [h]

/-- A district whose boundary loads always persists a cache, whatever the
layer queries did. -/
theorem build_district_boundary_some (parseEnd : String → Option Int) (now : Int)
    (d : DistrictFetch) (h : d.boundary.isSome) :
    ∃ c, (build_district parseEnd now d).1 = some c := by
  rcases hb : d.boundary with _ | u
  · rw [hb] at h; exact absurd h (by simp)
  · unfold build_district
    rw [hb]
    exact ⟨_, rfl⟩

/-- A layer whose primary request raised a transport exception: the warning
is printed and the alternates determine the features. -/
theorem layerFetch_primary_transport (key layer : String) (q : LayerQuery) (m : String)
    (hp : q.primary = .transportError m) :
    layerFetch key layer q
      = (tryAlternates q.alternates, [Warn.layerQueryError key layer m]) := by
  rcases q with ⟨prim, alts⟩
  dsimp only at hp ⊢
  subst hp
  rfl

/-- A layer whose primary request returned an error payload: no warning is
printed and the alternates determine the features. -/
theorem layerFetch_primary_protocol (key layer : String) (q : LayerQuery) (m : String)
    (hp : q.primary = .protocolError m) :
    layerFetch key layer q = (tryAlternates q.alternates, []) := by
  rcases q with ⟨prim, alts⟩
  dsimp only at hp ⊢
  subst hp
  rfl

/-- When the closures layer fetch came back empty, the merged arrival list is
exactly the other two layers' events. -/
theorem arrivalEvents_closures_empty (parseEnd : String → Option Int) (now : Int)
    (d : DistrictFetch) (h : (layerFetch d.key "closures" d.closures).1 = []) :
    arrivalEvents parseEnd now d
      = eventsOfLayer parseEnd now "construction"
          (layerFetch d.key "construction" d.construction).1
        ++ eventsOfLayer parseEnd now "restriction"
          (layerFetch d.key "restrictions" d.restrictions).1 := by
  unfold arrivalEvents
  rw [h]
  simp [eventsOfLayer]

/-- The exact cache and warning list a district with a boundary persists, in
terms of its three layer fetches. -/
theorem build_district_shape (parseEnd : String → Option Int) (now : Int)
    (d : DistrictFetch) (b : Unit) (hb : d.boundary = some b) :
    build_district parseEnd now d
      = (some
          { district_key := d.key
            counts_construction := (layerFetch d.key "construction" d.construction).1.length
            counts_closures := (layerFetch d.key "closures" d.closures).1.length
            counts_restrictions := (layerFetch d.key "restrictions" d.restrictions).1.length
            total := (layerFetch d.key "construction" d.construction).1.length
              + (layerFetch d.key "closures" d.closures).1.length
              + (layerFetch d.key "restrictions" d.restrictions).1.length
            top := (sortBySeverityDesc (arrivalEvents parseEnd now d)).take 10
            items := sortBySeverityDesc (arrivalEvents parseEnd now d) },
        (layerFetch d.key "construction" d.construction).2
          ++ (layerFetch d.key "closures" d.closures).2
          ++ (layerFetch d.key "restrictions" d.restrictions).2) := by
  unfold build_district
  rw [hb]

/-- C3 counterexample: two of the claim's failure conditions are skipped
without any warning.  The aggregator given a malformed cache file
(`US-IL-CD-01`) skips it — only the well-formed `US-IL-CD-02` contributes —
while emitting zero warnings; and a district whose closures layer returns an
endpoint error payload persists a cache with that layer at zero events while
emitting zero warnings.  Both refute "skipped with a warning" as stated. -/
theorem c3_counterexample :
    ((build_statewide_senators
        [("US-IL-CD-01", Except.error ()), ("US-IL-CD-02", Except.ok [baseEvent])]).2 = []
      ∧ (build_statewide_senators
          [("US-IL-CD-01", Except.error ()), ("US-IL-CD-02", Except.ok [baseEvent])]).1.items
        = [{ baseEvent with sourceDistrict := some "US-IL-CD-02" }])
      ∧ (build_district (fun _ => none) 0 protocolErrorFetch).2 = []
      ∧ (build_district (fun _ => none) 0 protocolErrorFetch).1
        = some { district_key := "US-IL-CD-03", counts_construction := 0,
                 counts_closures := 0, counts_restrictions := 0, total := 0,
                 top := [], items := [] } := by
  exact ⟨⟨rfl, rfl⟩, rfl, rfl⟩

/-- C3 amended: no listed failure condition is fatal to the batch, and every
other district/layer is still attempted and persisted — every district is
attempted in order; a missing boundary file skips that district with a
warning; a query transport error is reported with a warning and, when the
alternate endpoints also yield nothing, leaves the affected layer at zero
events and a zero count while the district's other layers are still
persisted; a district whose boundary loads always persists a cache; and the
aggregator skips malformed per-district cache files and continues — but an
endpoint error payload and a malformed per-district cache file are skipped
silently (no warning is emitted for either), not warned as the claim
states. -/
theorem c3_partial_progress (parseEnd : String → Option Int) (now : Int) :
    (∀ districts : List DistrictFetch,
        (runBatch parseEnd now districts).1.map Prod.fst
          = districts.map DistrictFetch.key)
      ∧ (∀ districts : List DistrictFetch, ∀ d ∈ districts, d.boundary = none →
          (d.key, (none : Option DistrictCache)) ∈ (runBatch parseEnd now districts).1
            ∧ Warn.noBoundary d.key ∈ (runBatch parseEnd now districts).2)
      ∧ (∀ districts : List DistrictFetch, ∀ d ∈ districts, d.boundary.isSome →
          ∃ c : DistrictCache, (d.key, some c) ∈ (runBatch parseEnd now districts).1)
      ∧ (∀ (d : DistrictFetch) (b : Unit) (m : String), d.boundary = some b →
          d.closures.primary = .transportError m →
          tryAlternates d.closures.alternates = [] →
          ∃ c : DistrictCache, (build_district parseEnd now d).1 = some c
            ∧ c.counts_closures = 0
            ∧ c.counts_construction
                = (layerFetch d.key "construction" d.construction).1.length
            ∧ c.counts_restrictions
                = (layerFetch d.key "restrictions" d.restrictions).1.length
            ∧ c.items.Perm
                (eventsOfLayer parseEnd now "construction"
                    (layerFetch d.key "construction" d.construction).1
                  ++ eventsOfLayer parseEnd now "restriction"
                    (layerFetch d.key "restrictions" d.restrictions).1)
            ∧ Warn.layerQueryError d.key "closures" m
                ∈ (build_district parseEnd now d).2)
      ∧ (∀ (key layer m : String) (alts : List LayerOutcome),
          (layerFetch key layer ⟨.transportError m, alts⟩).2
              = [Warn.layerQueryError key layer m]
            ∧ (layerFetch key layer ⟨.protocolError m, alts⟩).2 = [])
      ∧ (∀ (d : DistrictFetch) (b : Unit) (m : String), d.boundary = some b →
          d.closures.primary = .protocolError m →
          tryAlternates d.closures.alternates = [] →
          ∃ c : DistrictCache, (build_district parseEnd now d).1 = some c
            ∧ c.counts_closures = 0
            ∧ c.items.Perm
                (eventsOfLayer parseEnd now "construction"
                    (layerFetch d.key "construction" d.construction).1
                  ++ eventsOfLayer parseEnd now "restriction"
                    (layerFetch d.key "restrictions" d.restrictions).1)
            ∧ (layerFetch d.key "closures" d.closures).2 = [])
      ∧ (∀ (seen : List String) (pre post : List CacheFile) (k : String) (u : Unit),
          scanCaches seen (pre ++ (k, Except.error u) :: post)
            = scanCaches seen (pre ++ post))
      ∧ (∀ files : List CacheFile, (build_statewide_senators files).2 = []) := by
  refine ⟨?_, ?_, ?_, ?_, ?_, ?_, ?_, ?_⟩
  · intro districts
    induction districts with
    | nil => rfl
    | cons d rest ih =>
      rw [runBatch_cons]
      simp only [List.map_cons]
      rw [ih]
  · intro districts
    induction districts with
    | nil => intro d hd; exact absurd hd (List.not_mem_nil d)
    | cons d0 rest ih =>
      intro d hd hb
      rw [runBatch_cons]
      rcases List.mem_cons.mp hd with rfl | hd'
      · rw [build_district_boundary_none parseEnd now d hb]
        exact ⟨List.mem_cons_self _ _, List.mem_append.mpr (Or.inl (List.mem_cons_self _ _))⟩
      · have := ih d hd' hb
        exact ⟨List.mem_cons_of_mem _ this.1, List.mem_append.mpr (Or.inr this.2)⟩
  · intro districts
    induction districts with
    | nil => intro d hd; exact absurd hd (List.not_mem_nil d)
    | cons d0 rest ih =>
      intro d hd hb
      rw [runBatch_cons]
      rcases List.mem_cons.mp hd with rfl | hd'
      · obtain ⟨c, hc⟩ := build_district_boundary_some parseEnd now d hb
        exact ⟨c, by rw [← hc]; exact List.mem_cons_self _ _⟩
      · obtain ⟨c, hc⟩ := ih d hd' hb
        exact ⟨c, List.mem_cons_of_mem _ hc⟩
  · intro d b m hb hp ha
    have hlf := layerFetch_primary_transport d.key "closures" d.closures m hp
    have hfail : (layerFetch d.key "closures" d.closures).1 = [] := by
      rw [hlf]; exact ha
    rw [build_district_shape parseEnd now d b hb]
    refine ⟨_, rfl, ?_, rfl, rfl, ?_, ?_⟩
    · show (layerFetch d.key "closures" d.closures).1.length = 0
      rw [hfail]; rfl
    · refine (stableSortBy_perm sevGe (arrivalEvents parseEnd now d)).trans ?_
      rw [arrivalEvents_closures_empty parseEnd now d hfail]
    · show Warn.layerQueryError d.key "closures" m
          ∈ (layerFetch d.key "construction" d.construction).2
            ++ (layerFetch d.key "closures" d.closures).2
            ++ (layerFetch d.key "restrictions" d.restrictions).2
      rw [hlf]
      exact List.mem_append.mpr (Or.inl (List.mem_append.mpr
        (Or.inr (List.mem_cons_self _ _))))
  · intro key layer m alts
    exact ⟨rfl, rfl⟩
  · intro d b m hb hp ha
    have hlf := layerFetch_primary_protocol d.key "closures" d.closures m hp
    have hfail : (layerFetch d.key "closures" d.closures).1 = [] := by
      rw [hlf]; exact ha
    rw [build_district_shape parseEnd now d b hb]
    refine ⟨_, rfl, ?_, ?_, ?_⟩
    · show (layerFetch d.key "closures" d.closures).1.length = 0
      rw [hfail]; rfl
    · refine (stableSortBy_perm sevGe (arrivalEvents parseEnd now d)).trans ?_
      rw [arrivalEvents_closures_empty parseEnd now d hfail]
    · rw [hlf]
  · intro seen pre post k u
    exact scanCaches_skips_malformed pre seen post k u
  · intro files
    exact scanCaches_warns (sortFilesByKey files) []

/-- Witness for the amended C3 at concrete inputs: a district with no
boundary is skipped with a warning while the healthy district is still built
and persisted, and a district whose closures layer raises a transport error
(with no alternate succeeding) is persisted with that layer at zero events,
the other layers intact, and the transport warning emitted. -/
theorem c3_witness :
    (("US-IL-CD-07", (none : Option DistrictCache))
        ∈ (runBatch (fun _ => none) 0 [noBoundaryFetch, emptyFetch]).1
      ∧ Warn.noBoundary "US-IL-CD-07"
        ∈ (runBatch (fun _ => none) 0 [noBoundaryFetch, emptyFetch]).2)
      ∧ (∃ c : DistrictCache,
          ("US-IL-CD-05", some c) ∈ (runBatch (fun _ => none) 0 [noBoundaryFetch, emptyFetch]).1)
      ∧ (∃ c : DistrictCache,
          (build_district (fun _ => none) 0 transportErrorFetch).1 = some c
            ∧ c.counts_closures = 0
            ∧ c.counts_construction
                = (layerFetch transportErrorFetch.key "construction"
                    transportErrorFetch.construction).1.length
            ∧ c.counts_restrictions
                = (layerFetch transportErrorFetch.key "restrictions"
                    transportErrorFetch.restrictions).1.length
            ∧ c.items.Perm
                (eventsOfLayer (fun _ => none) 0 "construction"
                    (layerFetch transportErrorFetch.key "construction"
                      transportErrorFetch.construction).1
                  ++ eventsOfLayer (fun _ => none) 0 "restriction"
                    (layerFetch transportErrorFetch.key "restrictions"
                      transportErrorFetch.restrictions).1)
            ∧ Warn.layerQueryError transportErrorFetch.key "closures" "timeout"
                ∈ (build_district (fun _ => none) 0 transportErrorFetch).2) :=
  ⟨(c3_partial_progress (fun _ => none) 0).2.1 [noBoundaryFetch, emptyFetch]
      noBoundaryFetch (List.mem_cons_self _ _) rfl,
    (c3_partial_progress (fun _ => none) 0).2.2.1 [noBoundaryFetch, emptyFetch]
      emptyFetch (List.mem_cons_of_mem _ (List.mem_cons_self _ _)) rfl,
    (c3_partial_progress (fun _ => none) 0).2.2.2.1 transportErrorFetch () "timeout"
      rfl rfl rfl⟩

/-- Step equation for the per-file event loop (new id). -/
theorem addFileEvents_cons_new (k : String) (seen : List String) (e : Event)
    (es : List Event) (h : e.id ≠ "" ∧ e.id ∉ seen) :
    addFileEvents k seen (e :: es)
      = ({ e with sourceDistrict := some k } :: (addFileEvents k (e.id :: seen) es).1,
         (addFileEvents k (e.id :: seen) es).2) := by
  show (if e.id ≠ "" ∧ e.id ∉ seen then
      ({ e with sourceDistrict := some k } :: (addFileEvents k (e.id :: seen) es).1,
        (addFileEvents k (e.id :: seen) es).2)
    else addFileEvents k seen es) = _
  rw [if_pos h]

/-- Step equation for the per-file event loop (skipped event). -/
theorem addFileEvents_cons_skip (k : String) (seen : List String) (e : Event)
    (es : List Event) (h : ¬(e.id ≠ "" ∧ e.id ∉ seen)) :
    addFileEvents k seen (e :: es) = addFileEvents k seen es := by
  show (if e.id ≠ "" ∧ e.id ∉ seen then
      ({ e with sourceDistrict := some k } :: (addFileEvents k (e.id :: seen) es).1,
        (addFileEvents k (e.id :: seen) es).2)
    else addFileEvents k seen es) = _
  rw [if_neg h]

/-- Every event appended from one file is tagged with that file's key, has a
non-empty id not previously seen, and matches an event of the file. -/
theorem addFileEvents_mem (k : String) (es : List Event) :
    ∀ (seen : List String) (e' : Event), e' ∈ (addFileEvents k seen es).1 →
      e'.sourceDistrict = some k ∧ e'.id ∉ seen ∧ e'.id ≠ ""
        ∧ ∃ e ∈ es, e.id = e'.id := by
  induction es with
  | nil => intro seen e' h; exact absurd h (List.not_mem_nil e')
  | cons e es ih =>
    intro seen e' h'
    by_cases hc : e.id ≠ "" ∧ e.id ∉ seen
    · rw [addFileEvents_cons_new k seen e es hc] at h'
      rcases List.mem_cons.mp h' with rfl | hmem
      · exact ⟨rfl, hc.2, hc.1, e, List.mem_cons_self e es, rfl⟩
      · obtain ⟨h1, h2, h3, ev, hev, heq⟩ := ih (e.id :: seen) e' hmem
        exact ⟨h1, fun hs => h2 (List.mem_cons_of_mem _ hs), h3,
          ev, List.mem_cons_of_mem _ hev, heq⟩
    · rw [addFileEvents_cons_skip k seen e es hc] at h'
      obtain ⟨h1, h2, h3, ev, hev, heq⟩ := ih seen e' h'
      exact ⟨h1, h2, h3, ev, List.mem_cons_of_mem _ hev, heq⟩

/-- The seen-id set only grows across one file. -/
theorem addFileEvents_seen_sub (k : String) (es : List Event) :
    ∀ (seen : List String) (x : String), x ∈ seen → x ∈ (addFileEvents k seen es).2 := by
  induction es with
  | nil => intro seen x hx; exact hx
  | cons e es ih =>
    intro seen x hx
    by_cases hc : e.id ≠ "" ∧ e.id ∉ seen
    · rw [addFileEvents_cons_new k seen e es hc]
      exact ih (e.id :: seen) x (List.mem_cons_of_mem _ hx)
    · rw [addFileEvents_cons_skip k seen e es hc]
      exact ih seen x hx

/-- After one file is processed, every non-empty id occurring in it is seen. -/
theorem addFileEvents_seen_of_mem (k : String) (es : List Event) :
    ∀ (seen : List String) (e : Event), e ∈ es → e.id ≠ "" →
      e.id ∈ (addFileEvents k seen es).2 := by
  induction es with
  | nil => intro seen e he; exact absurd he (List.not_mem_nil e)
  | cons e0 es ih =>
    intro seen e he hne
    by_cases hc : e0.id ≠ "" ∧ e0.id ∉ seen
    · rw [addFileEvents_cons_new k seen e0 es hc]
      rcases List.mem_cons.mp he with rfl | he'
      · exact addFileEvents_seen_sub k es (e.id :: seen) e.id (List.mem_cons_self _ _)
      · exact ih (e0.id :: seen) e he' hne
    · rw [addFileEvents_cons_skip k seen e0 es hc]
      rcases List.mem_cons.mp he with rfl | he'
      · have hin : e.id ∈ seen := by
          by_contra hni
          exact hc ⟨hne, hni⟩
        exact addFileEvents_seen_sub k es seen e.id hin
      · exact ih seen e he' hne

/-- The ids appended from one file end up in the resulting seen set. -/
theorem addFileEvents_out_seen (k : String) (es : List Event) (seen : List String)
    (e' : Event) (h : e' ∈ (addFileEvents k seen es).1) :
    e'.id ∈ (addFileEvents k seen es).2 := by
  obtain ⟨_, _, h3, ev, hev, heq⟩ := addFileEvents_mem k es seen e' h
  rw [← heq]
  exact addFileEvents_seen_of_mem k es seen ev hev (by rw [heq]; exact h3)

/-- The events appended from one file carry pairwise distinct ids. -/
theorem addFileEvents_nodup (k : String) (es : List Event) :
    ∀ seen : List String, ((addFileEvents k seen es).1.map Event.id).Nodup := by
  induction es with
  | nil => intro seen; exact List.Pairwise.nil
  | cons e es ih =>
    intro seen
    by_cases hc : e.id ≠ "" ∧ e.id ∉ seen
    · rw [addFileEvents_cons_new k seen e es hc]
      rw [List.map_cons]
      refine List.nodup_cons.mpr ⟨?_, ih (e.id :: seen)⟩
      intro hmem
      obtain ⟨e', he', heq⟩ := List.mem_map.mp hmem
      have := (addFileEvents_mem k es (e.id :: seen) e' he').2.1
      rw [heq] at this
      exact this (List.mem_cons_self _ _)
    · rw [addFileEvents_cons_skip k seen e es hc]
      exact ih seen

/-- Every event surviving the scan has a non-empty id not previously seen and
carries the tag of the first scanned file holding its id. -/
theorem scanCaches_mem (files : List CacheFile) :
    ∀ (seen : List String) (e' : Event), e' ∈ (scanCaches seen files).1 →
      e'.id ≠ "" ∧ e'.id ∉ seen ∧ e'.sourceDistrict = firstOwner e'.id files := by
  induction files with
  | nil => intro seen e' h; exact absurd h (List.not_mem_nil e')
  | cons f rest ih =>
    intro seen e' h'
    rcases f with ⟨k, c⟩
    rw [scanCaches_cons] at h'
    rw [firstOwner_cons]
    by_cases hk : k = "US-IL-SEN"
    · rw [if_pos hk] at h'
      rw [if_pos hk]
      exact ih seen e' h'
    · rw [if_neg hk] at h'
      rw [if_neg hk]
      rcases c with u | evts
      · exact ih seen e' h'
      · dsimp only at h' ⊢
        rcases List.mem_append.mp h' with hin | hin
        · obtain ⟨h1, h2, h3, ev, hev, heq⟩ := addFileEvents_mem k evts seen e' hin
          have hany : evts.any (fun e => e.id = e'.id) = true :=
            List.any_eq_true.mpr ⟨ev, hev, decide_eq_true heq⟩
          rw [if_pos hany]
          exact ⟨h3, h2, h1⟩
        · obtain ⟨h1, h2, h3⟩ := ih (addFileEvents k seen evts).2 e' hin
          have hseen : e'.id ∉ seen :=
            fun hs => h2 (addFileEvents_seen_sub k evts seen e'.id hs)
          have hnoany : evts.any (fun e => e.id = e'.id) = false := by
            rcases hv : evts.any (fun e => e.id = e'.id) with _ | _
            · rfl
            · obtain ⟨ev, hev, hp⟩ := List.any_eq_true.mp hv
              have heq : ev.id = e'.id := of_decide_eq_true hp
              have hvin : ev.id ∈ (addFileEvents k seen evts).2 :=
                addFileEvents_seen_of_mem k evts seen ev hev (by rw [heq]; exact h1)
              rw [heq] at hvin
              exact absurd hvin h2
          rw [hnoany]
          simp only [Bool.false_eq_true, if_false]
          exact ⟨h1, hseen, h3⟩

/-- The surviving events of a scan have pairwise distinct ids. -/
theorem scanCaches_nodup (files : List CacheFile) :
    ∀ seen : List String, ((scanCaches seen files).1.map Event.id).Nodup := by
  induction files with
  | nil => intro seen; exact List.Pairwise.nil
  | cons f rest ih =>
    intro seen
    rcases f with ⟨k, c⟩
    rw [scanCaches_cons]
    by_cases hk : k = "US-IL-SEN"
    · rw [if_pos hk]; exact ih seen
    · rw [if_neg hk]
      rcases c with u | evts
      · exact ih seen
      · dsimp only
        rw [List.map_append]
        refine List.nodup_append.mpr ⟨addFileEvents_nodup k evts seen, ih _, ?_⟩
        intro x hx hx'
        obtain ⟨e1, he1, heq1⟩ := List.mem_map.mp hx
        obtain ⟨e2, he2, heq2⟩ := List.mem_map.mp hx'
        have h1 : e1.id ∈ (addFileEvents k seen evts).2 :=
          addFileEvents_out_seen k evts seen e1 he1
        have h2 := (scanCaches_mem rest (addFileEvents k seen evts).2 e2 he2).2.1
        rw [heq2, ← heq1] at h2
        exact h2 h1

/-- C9: the statewide aggregator deduplicates by id (first occurrence wins,
in sorted key scan order), tags every surviving event with the key of the
district cache it was first seen in, and persists the top-5 plus a browsing
list of at most 50 events. -/
theorem c9_aggregator_dedup_attribution (files : List CacheFile) :
    ((aggregateEvents files).map Event.id).Nodup
      ∧ (∀ e ∈ aggregateEvents files,
          e.id ≠ "" ∧ e.sourceDistrict = firstOwner e.id (sortFilesByKey files))
      ∧ (build_statewide_senators files).1.top
          = (sortBySeverityDesc (aggregateEvents files)).take 5
      ∧ (build_statewide_senators files).1.items
          = (sortBySeverityDesc (aggregateEvents files)).take 50
      ∧ (build_statewide_senators files).1.items.length ≤ 50 := by
  refine ⟨scanCaches_nodup (sortFilesByKey files) [], ?_, rfl, rfl, List.length_take_le _ _⟩
  intro e he
  obtain ⟨h1, _, h3⟩ := scanCaches_mem (sortFilesByKey files) [] e he
  exact ⟨h1, h3⟩

/-- Witness for C9: an event present in two overlapping district caches
survives once and is attributed to the first cache in sorted key order
(`US-IL-CD-01`), even though that file was listed second. -/
theorem c9_witness :
    { baseEvent with sourceDistrict := some "US-IL-CD-01" } ∈ aggregateEvents overlapFiles
      ∧ ({ baseEvent with sourceDistrict := some "US-IL-CD-01" } : Event).sourceDistrict
          = firstOwner ({ baseEvent with sourceDistrict := some "US-IL-CD-01" } : Event).id
              (sortFilesByKey overlapFiles) :=
  ⟨by decide,
    ((c9_aggregator_dedup_attribution overlapFiles).2.1 _ (by decide)).2⟩

/-- When the object-identifier chain resolves to a truthy value, the
normalized id is the layer type joined to it by a colon. -/
theorem normalize_id_objid (p : Props) (t : String) (g : Option Geom) (v : PVal)
    (hv : orKeys p objIdKeys = some v) :
    (normalize_event p t g).id = t ++ ":" ++ v.pyStr := by
  show (match orKeys p objIdKeys with
        | some v => t ++ ":" ++ v.pyStr
        | none => contentHash12 p) = t ++ ":" ++ v.pyStr
  rw [hv]

/-- When the object-identifier chain resolves to nothing truthy, the
normalized id is the content hash. -/
theorem normalize_id_hash (p : Props) (t : String) (g : Option Geom)
    (hv : orKeys p objIdKeys = none) :
    (normalize_event p t g).id = contentHash12 p := by
  show (match orKeys p objIdKeys with
        | some v => t ++ ":" ++ v.pyStr
        | none => contentHash12 p) = contentHash12 p
  rw [hv]

/-- None of the three layer type names contains a colon. -/
theorem layerTypes_colon_free : ∀ t ∈ layerTypes, ':' ∉ t.data := by decide

/-- Appending after a first colon is injective on the colon-free stem. -/
theorem append_colon_inj (x y : List Char) :
    ∀ a b : List Char, ':' ∉ a → ':' ∉ b → a ++ ':' :: x = b ++ ':' :: y → a = b := by
  intro a
  induction a with
  | nil =>
    intro b _ hb h
    rcases b with _ | ⟨c, b'⟩
    · rfl
    · simp only [List.nil_append, List.cons_append] at h
      injection h with h1 _
      rw [← h1] at hb
      exact absurd (List.mem_cons_self ':' b') hb
  | cons c a' ih =>
    intro b ha hb h
    rcases b with _ | ⟨c2, b'⟩
    · simp only [List.cons_append, List.nil_append] at h
      injection h with h1 _
      rw [h1] at ha
      exact absurd (List.mem_cons_self ':' a') ha
    · simp only [List.cons_append] at h
      injection h with h1 h2
      have ha' : ':' ∉ a' := fun hm => ha (List.mem_cons_of_mem c hm)
      have hb' : ':' ∉ b' := fun hm => hb (List.mem_cons_of_mem c2 hm)
      rw [h1, ih b' ha' hb' h2]

/-- Character data of a `type:objid` identifier. -/
theorem id_data (t s : String) : (t ++ ":" ++ s).data = t.data ++ ':' :: s.data := by
  simp [String.data_append, List.append_assoc]

/-- The content hash is twelve characters long. -/
theorem contentHash12_length (p : Props) : (contentHash12 p).length = 12 := by
  show (((List.range 12).map
    (fun i => hexDigit (simpleDigest (serializeProps (sortPropsByKey p)) / 16 ^ i % 16))).reverse).length = 12
  rw [List.length_reverse, List.length_map, List.length_range]

/-- A chain over keys all of which are absent, zero, or empty resolves to
nothing. -/
theorem orKeys_none_of_falsy (p : Props) :
    ∀ ks : List String,
      (∀ k ∈ ks, getVal p k = none ∨ getVal p k = some (.num 0)
        ∨ getVal p k = some (.str "")) →
      orKeys p ks = none := by
  intro ks
  induction ks with
  | nil => intro _; rfl
  | cons k ks ih =>
    intro h
    have hk := h k (List.mem_cons_self k ks)
    have hrest := ih (fun k' hk' => h k' (List.mem_cons_of_mem k hk'))
    show (match getVal p k with
          | some v => if v.truthy then some v else orKeys p ks
          | none => orKeys p ks) = none
    rcases hk with hnone | h0 | hemp
    · rw [hnone]; exact hrest
    · rw [h0]
      show (if (PVal.num 0).truthy then some (PVal.num 0) else orKeys p ks) = none
      rw [if_neg (by decide)]
      exact hrest
    · rw [hemp]
      show (if (PVal.str "").truthy then some (PVal.str "") else orKeys p ks) = none
      rw [if_neg (by decide)]
      exact hrest

/-- C10: a record whose object identifier (OBJECTID/ObjectId/FID) resolves to
a truthy value gets id `layer_type:identifier`, so records of different
source layers never collide; a record whose identifier fields are all absent,
the number 0, or the empty string falls back to the 12-character content hash
of its sorted raw field mapping. -/
theorem c10_id_derivation :
    (∀ (p : Props) (t : String) (g : Option Geom) (v : PVal),
        orKeys p objIdKeys = some v →
        (normalize_event p t g).id = t ++ ":" ++ v.pyStr)
      ∧ (∀ (p₁ p₂ : Props) (t₁ t₂ : String) (g₁ g₂ : Option Geom),
          t₁ ∈ layerTypes → t₂ ∈ layerTypes → t₁ ≠ t₂ →
          (orKeys p₁ objIdKeys).isSome → (orKeys p₂ objIdKeys).isSome →
          (normalize_event p₁ t₁ g₁).id ≠ (normalize_event p₂ t₂ g₂).id)
      ∧ (∀ (p : Props) (t : String) (g : Option Geom),
          (∀ k ∈ objIdKeys, getVal p k = none ∨ getVal p k = some (.num 0)
            ∨ getVal p k = some (.str "")) →
          (normalize_event p t g).id = contentHash12 p)
      ∧ (∀ p : Props, (contentHash12 p).length = 12)
      ∧ (∀ p q : Props, sortPropsByKey p = sortPropsByKey q →
          contentHash12 p = contentHash12 q) := by
  refine ⟨normalize_id_objid, ?_, ?_, contentHash12_length, ?_⟩
  · intro p₁ p₂ t₁ t₂ g₁ g₂ ht₁ ht₂ hne hs₁ hs₂ heq
    obtain ⟨v₁, hv₁⟩ := Option.isSome_iff_exists.mp hs₁
    obtain ⟨v₂, hv₂⟩ := Option.isSome_iff_exists.mp hs₂
    rw [normalize_id_objid p₁ t₁ g₁ v₁ hv₁, normalize_id_objid p₂ t₂ g₂ v₂ hv₂] at heq
    have hd := congrArg String.data heq
    rw [id_data, id_data] at hd
    exact hne (String.ext (append_colon_inj v₁.pyStr.data v₂.pyStr.data t₁.data t₂.data
      (layerTypes_colon_free t₁ ht₁) (layerTypes_colon_free t₂ ht₂) hd))
  · intro p t g h
    exact normalize_id_hash p t g (orKeys_none_of_falsy p objIdKeys h)
  · intro p q h
    unfold contentHash12
    rw [h]

/-- Witness for C10 at concrete records: distinct layers with the same truthy
identifier get distinct ids, and a record whose identifier is the number 0
falls back to the content hash. -/
theorem c10_witness :
    (normalize_event [("OBJECTID", PVal.num 7)] "construction" none).id
        ≠ (normalize_event [("OBJECTID", PVal.num 7)] "closure" none).id
      ∧ (normalize_event [("OBJECTID", PVal.num 0)] "closure" none).id
          = contentHash12 [("OBJECTID", PVal.num 0)] :=
  ⟨c10_id_derivation.2.1 [("OBJECTID", PVal.num 7)] [("OBJECTID", PVal.num 7)]
      "construction" "closure" none none (by decide) (by decide) (by decide)
      (by decide) (by decide),
    c10_id_derivation.2.2.1 [("OBJECTID", PVal.num 0)] "closure" none (by decide)⟩

end IdotRoad
